import Mathlib

/-!
Verification development for the Telegram-export-to-HTML converter
(`Html_to_read.py`).  The Python functions are shallowly embedded as
executable Lean definitions: the file system is an explicit list of
existing paths, exceptions become `Option`, and Python truthiness is
made explicit.  The main claims about sorting, media resolution,
rendering and timestamp normalisation are then proved (or refuted)
against these definitions.
-/

namespace HtmlToRead

/-! ## Python-style string helpers -/

/-- Model of Python `html.escape(s, quote=True)`: replaces the five
HTML-significant characters by their entities (per-character mapping is
equivalent to CPython's replace chain, which substitutes `&` first). -/
def escapeChar (c : Char) : String :=
  if c = '&' then "&amp;"
  else if c = '<' then "&lt;"
  else if c = '>' then "&gt;"
  else if c = '"' then "&quot;"
  else if c = '\'' then "&#x27;"
  else String.singleton c

/-- Model of Python `html.escape` with default `quote=True`. -/
def html_escape (s : String) : String :=
  String.join (s.toList.map escapeChar)

/-- Python truthiness of an optional string (`None` and `""` are falsy). -/
def truthyS : Option String → Bool
  | none => false
  | some s => s ≠ ""

/-- Model of Python `a or b` on an optional string with a string default:
returns `a`'s value when it is truthy, otherwise `b`. -/
def py_or (a : Option String) (b : String) : String :=
  match a with
  | some s => if s = "" then b else s
  | none => b

/-- Model of Python `a or b` on two optional strings (first truthy wins,
otherwise the second operand is returned unchanged). -/
def py_or_opt (a b : Option String) : Option String :=
  match a with
  | some s => if s = "" then b else some s
  | none => b

/-! ## Datetime model

`DT` models a Python `datetime.datetime` value (naive, second
precision, which is all the program constructs).  Fields are kept as
plain `Nat`s; every `DT` produced by the parsers below satisfies the
`datetime` constructor's range checks (`1 <= year <= 9999`, calendar
day validation, `hour <= 23`, `minute, second <= 59`). -/

structure DT where
  year : Nat
  month : Nat
  day : Nat
  hour : Nat
  minute : Nat
  second : Nat
deriving DecidableEq, Repr

/-- `datetime.min` = 0001-01-01 00:00:00. -/
def dtMin : DT := ⟨1, 1, 1, 0, 0, 0⟩

/-- Gregorian leap-year rule, as used by Python's `datetime`. -/
def isLeap (y : Nat) : Bool :=
  (y % 4 = 0 && y % 100 ≠ 0) || y % 400 = 0

/-- Days in a month, as validated by the `datetime` constructor. -/
def daysInMonth (y m : Nat) : Nat :=
  if m = 2 then (if isLeap y then 29 else 28)
  else if m = 4 || m = 6 || m = 9 || m = 11 then 30
  else 31

/-- The range validation performed by the `datetime.datetime`
constructor (raises `ValueError` in Python when it fails). -/
def validDT (d : DT) : Bool :=
  1 ≤ d.year && d.year ≤ 9999 &&
  1 ≤ d.month && d.month ≤ 12 &&
  1 ≤ d.day && d.day ≤ daysInMonth d.year d.month &&
  d.hour ≤ 23 && d.minute ≤ 59 && d.second ≤ 59

/-- Packs a (validated) datetime into a single `Nat` sort key; on
range-validated values this is strictly monotone in the lexicographic
(year, month, day, hour, minute, second) order, so comparing keys
compares timestamps. -/
def dtKey (d : DT) : Nat :=
  ((((d.year * 13 + d.month) * 32 + d.day) * 24 + d.hour) * 60 + d.minute) * 60 + d.second

/-- Sort key of `datetime.min`. -/
def dtMinKey : Nat := dtKey dtMin

/-! ## Parsing (models of `datetime.fromisoformat` / `strptime`) -/

/-- Numeric value of a decimal digit character. -/
def digitVal (c : Char) : Nat := c.toNat - '0'.toNat

/-- Model of `datetime.fromisoformat` restricted to the shapes the
program's data can take: `YYYY-MM-DD`, optionally followed by a single
separator character and `HH:MM:SS` (all fields zero-padded), with the
constructor's range validation.  Fractional seconds, time zones and
other extended ISO forms are outside the model. -/
def fromisoformat (s : String) : Option DT :=
  match s.toList with
  | [y1, y2, y3, y4, '-', m1, m2, '-', d1, d2] =>
    if y1.isDigit && y2.isDigit && y3.isDigit && y4.isDigit &&
       m1.isDigit && m2.isDigit && d1.isDigit && d2.isDigit then
      let d : DT := ⟨digitVal y1 * 1000 + digitVal y2 * 100 + digitVal y3 * 10 + digitVal y4,
                     digitVal m1 * 10 + digitVal m2,
                     digitVal d1 * 10 + digitVal d2, 0, 0, 0⟩
      if validDT d then some d else none
    else none
  | [y1, y2, y3, y4, '-', m1, m2, '-', d1, d2, _,
     h1, h2, ':', n1, n2, ':', s1, s2] =>
    if y1.isDigit && y2.isDigit && y3.isDigit && y4.isDigit &&
       m1.isDigit && m2.isDigit && d1.isDigit && d2.isDigit &&
       h1.isDigit && h2.isDigit && n1.isDigit && n2.isDigit &&
       s1.isDigit && s2.isDigit then
      let d : DT := ⟨digitVal y1 * 1000 + digitVal y2 * 100 + digitVal y3 * 10 + digitVal y4,
                     digitVal m1 * 10 + digitVal m2,
                     digitVal d1 * 10 + digitVal d2,
                     digitVal h1 * 10 + digitVal h2,
                     digitVal n1 * 10 + digitVal n2,
                     digitVal s1 * 10 + digitVal s2⟩
      if validDT d then some d else none
    else none
  | _ => none

/-- Reads two digits if both are present and the value lies in
`[lo2, hi2]`, else one digit with value in `[lo1, hi1]` — the
behaviour of CPython's `strptime` field regexes such as
`(1[0-2]|0[1-9]|[1-9])` for `%m`. -/
def grabField (lo2 hi2 lo1 hi1 : Nat) : List Char → Option (Nat × List Char)
  | a :: b :: rest =>
    if a.isDigit && b.isDigit &&
       lo2 ≤ digitVal a * 10 + digitVal b && digitVal a * 10 + digitVal b ≤ hi2 then
      some (digitVal a * 10 + digitVal b, rest)
    else if a.isDigit && lo1 ≤ digitVal a && digitVal a ≤ hi1 then
      some (digitVal a, b :: rest)
    else none
  | [a] =>
    if a.isDigit && lo1 ≤ digitVal a && digitVal a ≤ hi1 then some (digitVal a, [])
    else none
  | [] => none

/-- Expects a literal character at the head of the input. -/
def expectChar (c : Char) : List Char → Option (List Char)
  | a :: rest => if a = c then some rest else none
  | [] => none

/-- Model of `datetime.strptime(s, "%Y-%m-%dT%H:%M:%S")`: `%Y` is
exactly four digits; `%m`, `%d`, `%H`, `%M`, `%S` accept one or two
digits with the regex ranges CPython uses; the whole string must be
consumed; the resulting fields then pass the `datetime` constructor's
validation. -/
def strptimeT (s : String) : Option DT :=
  match s.toList with
  | y1 :: y2 :: y3 :: y4 :: rest0 =>
    if y1.isDigit && y2.isDigit && y3.isDigit && y4.isDigit then
      let y := digitVal y1 * 1000 + digitVal y2 * 100 + digitVal y3 * 10 + digitVal y4
      match expectChar '-' rest0 with
      | none => none
      | some rest1 =>
        match grabField 1 12 1 9 rest1 with
        | none => none
        | some (mo, rest2) =>
          match expectChar '-' rest2 with
          | none => none
          | some rest3 =>
            match grabField 1 31 1 9 rest3 with
            | none => none
            | some (dy, rest4) =>
              match expectChar 'T' rest4 with
              | none => none
              | some rest5 =>
                match grabField 0 23 0 9 rest5 with
                | none => none
                | some (h, rest6) =>
                  match expectChar ':' rest6 with
                  | none => none
                  | some rest7 =>
                    match grabField 0 59 0 9 rest7 with
                    | none => none
                    | some (mi, rest8) =>
                      match expectChar ':' rest8 with
                      | none => none
                      | some rest9 =>
                        match grabField 0 61 0 9 rest9 with
                        | none => none
                        | some (sec, rest10) =>
                          if rest10 = [] then
                            let d : DT := ⟨y, mo, dy, h, mi, sec⟩
                            if validDT d then some d else none
                          else none
    else none
  | _ => none

/-- Zero-pads a natural number to at least two decimal digits. -/
def pad2 (n : Nat) : String :=
  if n < 10 then "0" ++ toString n else toString n

/-- Zero-pads a natural number to at least four decimal digits. -/
def pad4 (n : Nat) : String :=
  if n < 10 then "000" ++ toString n
  else if n < 100 then "00" ++ toString n
  else if n < 1000 then "0" ++ toString n
  else toString n

/-- Model of `dt.strftime("%Y-%m-%d %H:%M:%S")`. -/
def fmtDT (d : DT) : String :=
  pad4 d.year ++ "-" ++ pad2 d.month ++ "-" ++ pad2 d.day ++ " " ++
  pad2 d.hour ++ ":" ++ pad2 d.minute ++ ":" ++ pad2 d.second

/-- Embedding of `iso_to_local` (`Html_to_read.py`, lines 57-65):
try `fromisoformat`, then `strptime("%Y-%m-%dT%H:%M:%S")`, and on
total failure return the input unchanged. -/
def iso_to_local (dt_str : String) : String :=
  match fromisoformat dt_str with
  | some d => fmtDT d
  | none =>
    match strptimeT dt_str with
    | some d => fmtDT d
    | none => dt_str

/-! ## Stable sort by a `Nat` key

Python's `sorted` is stable; any stable sort produces the same output,
so we model it by a stable insertion sort. -/

/-- Inserts `x` into `l` before the first element whose key is not
smaller — so a later-arriving `x` lands after all equal-key elements
already present, exactly the stable placement. -/
def insertByKey {α : Type} (key : α → Nat) (x : α) : List α → List α
  | [] => [x]
  | y :: ys => if key y < key x then y :: insertByKey key x ys else x :: y :: ys

/-- Stable sort by key: model of Python `sorted(l, key=key)`. -/
def sortByKey {α : Type} (key : α → Nat) : List α → List α
  | [] => []
  | x :: xs => insertByKey key x (sortByKey key xs)

theorem mem_insertByKey {α : Type} (key : α → Nat) (x : α) (l : List α) (z : α) :
    z ∈ insertByKey key x l ↔ z = x ∨ z ∈ l := by
  induction l with
  | nil => simp [insertByKey]
  | cons y ys ih =>
    by_cases h : key y < key x
    · simp [insertByKey, h, ih]
      tauto
    · simp [insertByKey, h]

theorem perm_insertByKey {α : Type} (key : α → Nat) (x : α) (l : List α) :
    (insertByKey key x l).Perm (x :: l) := by
  induction l with
  | nil => simp [insertByKey]
  | cons y ys ih =>
    by_cases h : key y < key x
    · simp only [insertByKey, h, if_pos]
      exact (ih.cons y).trans (List.Perm.swap x y ys)
    · simp [insertByKey, h]

theorem pairwise_insertByKey {α : Type} (key : α → Nat) (x : α) (l : List α)
    (hl : l.Pairwise (fun a b => key a ≤ key b)) :
    (insertByKey key x l).Pairwise (fun a b => key a ≤ key b) := by
  induction l with
  | nil => simp [insertByKey]
  | cons y ys ih =>
    rw [List.pairwise_cons] at hl
    by_cases h : key y < key x
    · simp only [insertByKey, h, if_pos]
      rw [List.pairwise_cons]
      constructor
      · intro z hz
        rcases (mem_insertByKey key x ys z).mp hz with rfl | hz'
        · exact Nat.le_of_lt h
        · exact hl.1 z hz'
      · exact ih hl.2
    · simp only [insertByKey, h, if_neg, Bool.false_eq_true, not_false_iff]
      rw [List.pairwise_cons]
      constructor
      · intro z hz
        rcases List.mem_cons.mp hz with rfl | hz'
        · exact Nat.le_of_not_lt h
        · exact Nat.le_trans (Nat.le_of_not_lt h) (hl.1 z hz')
      · exact List.pairwise_cons.mpr hl

theorem filter_insertByKey_eq {α : Type} (key : α → Nat) (x : α) (l : List α) (k : Nat)
    (hx : key x = k) :
    (insertByKey key x l).filter (fun z => key z == k) =
      x :: l.filter (fun z => key z == k) := by
  have px : (key x == k) = true := by simp [hx]
  induction l with
  | nil => simp [insertByKey, List.filter_cons, px]
  | cons y ys ih =>
    by_cases h : key y < key x
    · have hy : (key y == k) = false := by
        simp only [beq_eq_false_iff_ne, ne_eq]
        omega
      simp [insertByKey, h, List.filter_cons, hy, ih]
    · simp [insertByKey, h, List.filter_cons, px]

theorem filter_insertByKey_ne {α : Type} (key : α → Nat) (x : α) (l : List α) (k : Nat)
    (hx : ¬ key x = k) :
    (insertByKey key x l).filter (fun z => key z == k) =
      l.filter (fun z => key z == k) := by
  have px : (key x == k) = false := by simp [hx]
  induction l with
  | nil => simp [insertByKey, List.filter_cons, px]
  | cons y ys ih =>
    by_cases h : key y < key x
    · simp [insertByKey, h, List.filter_cons, ih]
    · simp [insertByKey, h, List.filter_cons, px]

theorem sortByKey_pairwise {α : Type} (key : α → Nat) (l : List α) :
    (sortByKey key l).Pairwise (fun a b => key a ≤ key b) := by
  induction l with
  | nil => simp [sortByKey]
  | cons x xs ih => exact pairwise_insertByKey key x _ ih

theorem sortByKey_perm {α : Type} (key : α → Nat) (l : List α) :
    (sortByKey key l).Perm l := by
  induction l with
  | nil => simp [sortByKey]
  | cons x xs ih =>
    exact (perm_insertByKey key x (sortByKey key xs)).trans (ih.cons x)

theorem sortByKey_stable {α : Type} (key : α → Nat) (l : List α) (k : Nat) :
    (sortByKey key l).filter (fun z => key z == k) =
      l.filter (fun z => key z == k) := by
  induction l with
  | nil => simp [sortByKey]
  | cons x xs ih =>
    by_cases hx : key x = k
    · have px : (key x == k) = true := by simp [hx]
      rw [sortByKey, filter_insertByKey_eq key x _ k hx, ih]
      simp [List.filter_cons, px]
    · have px : (key x == k) = false := by simp [hx]
      rw [sortByKey, filter_insertByKey_ne key x _ k hx, ih]
      simp [List.filter_cons, px]

/-! ## Path and file-system model

Paths are modelled as `pathlib` pure paths: an absolute flag plus a
list of components (empty and `.` components are normalised away, as
`pathlib` does).  The file system is an explicit list of paths that
exist; copying a file appends its destination path.  Directories
created by `ensure_dir` are not tracked — only the existence checks the
claims depend on are modelled. -/

structure MPath where
  absolute : Bool
  parts : List String
deriving DecidableEq, Repr

/-- Head of a list of strings, `""` when empty. -/
def headD : List String → String
  | [] => ""
  | a :: _ => a

/-- Splits a character list at every occurrence of `sep` (the
accumulator carries the current chunk reversed). -/
def splitCharAux (sep : Char) (cur : List Char) : List Char → List (List Char)
  | [] => [cur.reverse]
  | c :: rest =>
    if c = sep then cur.reverse :: splitCharAux sep [] rest
    else splitCharAux sep (c :: cur) rest

/-- Model of `pathlib.Path(s)` for POSIX-style strings: absolute iff
the string starts with `/`; empty and `.` components are normalised
away, as `pathlib` does. -/
def parsePath (s : String) : MPath :=
  ⟨(match s.toList with | '/' :: _ => true | _ => false),
   ((splitCharAux '/' [] s.toList).map String.mk).filter (fun c => c ≠ "" && c ≠ ".")⟩

/-- Model of `a / b`: joining with an absolute path replaces `a`. -/
def joinPath (a b : MPath) : MPath :=
  if b.absolute then b else ⟨a.absolute, a.parts ++ b.parts⟩

/-- Model of `Path.name`: the final component, `""` when there is none. -/
def MPath.name (p : MPath) : String := headD p.parts.reverse

/-- A single relative component as a path (`""` contributes nothing,
matching `pathlib`'s treatment of empty path strings). -/
def relSingle (n : String) : MPath :=
  ⟨false, if n = "" then [] else [n]⟩

/-- `Path.exists()` against the modelled file system. -/
def pexists (fs : List MPath) (p : MPath) : Bool := decide (p ∈ fs)

/-- The initial source location probed by `copy_media_file`
(`Html_to_read.py`, lines 70-72): the path itself when absolute,
otherwise the path resolved against the source root. -/
def srcCand (p : String) (b : MPath) : MPath :=
  if (parsePath p).absolute then parsePath p else joinPath b (parsePath p)

/-- A probe candidate `src_base / try_dir / Path(media_path).name`
from the fallback loop (`Html_to_read.py`, lines 74-78). -/
def probeCand (p : String) (b : MPath) (td : String) : MPath :=
  joinPath (joinPath b (relSingle td)) (relSingle (parsePath p).name)

/-- The source-selection logic of `copy_media_file`
(`Html_to_read.py`, lines 70-80): use the direct location if it
exists, else probe `media`, `files` and the root itself for the base
name, first hit winning; `none` when nothing exists. -/
def resolveMedia (fs : List MPath) (p : String) (b : MPath) : Option MPath :=
  if pexists fs (srcCand p b) then some (srcCand p b)
  else if pexists fs (probeCand p b "media") then some (probeCand p b "media")
  else if pexists fs (probeCand p b "files") then some (probeCand p b "files")
  else if pexists fs (probeCand p b "") then some (probeCand p b "")
  else none

/-- Embedding of `copy_media_file` (`Html_to_read.py`, lines 67-85):
falsy path or no existing source → `(none, fs)`; otherwise the file is
copied to `<dst>/<basename>` unless already present, and the
destination base name is returned.  The copy is the only file-system
mutation. -/
def copy_media_file (fs : List MPath) (media_path : String) (src_base dst_media_dir : MPath) :
    Option String × List MPath :=
  if media_path = "" then (none, fs)
  else
    match resolveMedia fs media_path src_base with
    | none => (none, fs)
    | some src =>
      let dst := joinPath dst_media_dir (relSingle src.name)
      if pexists fs dst then (some dst.name, fs)
      else (some dst.name, dst :: fs)

theorem headD_append_left (xs ys : List String) (h : xs ≠ []) :
    headD (xs ++ ys) = headD xs := by
  cases xs with
  | nil => exact absurd rfl h
  | cons a as => rfl

theorem name_join_single (d : MPath) (n : String) (hn : n ≠ "") :
    (joinPath d (relSingle n)).name = n := by
  simp [joinPath, relSingle, hn, MPath.name, List.reverse_append, headD]

/-- Every source `resolveMedia` can pick has the media path's base name
as its final component (when that base name is nonempty). -/
theorem resolveMedia_name {fs : List MPath} {p : String} {b : MPath} {s : MPath}
    (hn : (parsePath p).name ≠ "") (h : resolveMedia fs p b = some s) :
    s.name = (parsePath p).name := by
  have hparts : (parsePath p).parts ≠ [] := by
    intro he
    apply hn
    simp [MPath.name, he, headD]
  have hsrc : (srcCand p b).name = (parsePath p).name := by
    have hrev : (parsePath p).parts.reverse ≠ [] := by
      simpa using hparts
    unfold srcCand
    by_cases ha : (parsePath p).absolute = true
    · rw [if_pos ha]
    · rw [if_neg ha]
      simp only [joinPath, if_neg ha, MPath.name, List.reverse_append]
      exact headD_append_left _ _ hrev
  have hprobe : ∀ td, (probeCand p b td).name = (parsePath p).name := by
    intro td
    unfold probeCand
    exact name_join_single _ _ hn
  unfold resolveMedia at h
  split_ifs at h with h1 h2 h3 h4 <;>
    first
      | (injection h with h'; rw [← h']; exact hsrc)
      | (injection h with h'; rw [← h']; exact hprobe _)

/-- Adding a file cannot make resolution fail. -/
theorem resolveMedia_mono {fs : List MPath} {p : String} {b : MPath} {s x : MPath}
    (h : resolveMedia fs p b = some s) :
    ∃ s', resolveMedia (x :: fs) p b = some s' := by
  have hmem : ∀ q : MPath, pexists fs q = true → pexists (x :: fs) q = true := by
    intro q hq
    simp only [pexists, decide_eq_true_eq, List.mem_cons] at hq ⊢
    exact Or.inr hq
  cases hr : resolveMedia (x :: fs) p b with
  | some s' => exact ⟨s', rfl⟩
  | none =>
    exfalso
    unfold resolveMedia at hr
    split_ifs at hr with g1 g2 g3 g4
    have f1 : ¬ pexists fs (srcCand p b) = true := fun hc => g1 (hmem _ hc)
    have f2 : ¬ pexists fs (probeCand p b "media") = true := fun hc => g2 (hmem _ hc)
    have f3 : ¬ pexists fs (probeCand p b "files") = true := fun hc => g3 (hmem _ hc)
    have f4 : ¬ pexists fs (probeCand p b "") = true := fun hc => g4 (hmem _ hc)
    unfold resolveMedia at h
    rw [if_neg f1, if_neg f2, if_neg f3, if_neg f4] at h
    exact absurd h (by simp)

/-! ## Messages and rendering

The message shape is the one `generate_html` consumes: all fields
optional, with Python truthiness made explicit.  JSON values outside
the shapes the program reads (e.g. numeric text fields) are not part
of the model. -/

/-- One fragment of a structured `text` field: a plain string or an
entity object with optional `type`, `text` and `href` keys. -/
inductive Frag
  | str (s : String)
  | obj (ty tx hr : Option String)
deriving DecidableEq, Repr

/-- A message's `text` value: plain string or fragment list. -/
inductive TextVal
  | str (s : String)
  | frags (ps : List Frag)
deriving DecidableEq, Repr

/-- A `document` value: a bare path string, or a dict whose relevant
key is `file` (`obj none` models the empty dict). -/
inductive DocVal
  | str (s : String)
  | obj (file : Option String)
deriving DecidableEq, Repr

/-- A `media` value: a bare path string, or a dict with optional
`file` / `photo` / `path` / `document` keys. -/
inductive MediaVal
  | str (s : String)
  | obj (file photo path document : Option String)
deriving DecidableEq, Repr

/-- A message object.  `attachments` elements carry the attachment
dict's `file` value; `none` stands for a non-dict element or a dict
without a `file` key, which the loop skips. -/
structure Message where
  fromName : Option String := none
  actor : Option String := none
  date : Option String := none
  text : Option TextVal := none
  photo : Option String := none
  file : Option String := none
  document : Option DocVal := none
  media : Option MediaVal := none
  attachments : Option (List (Option String)) := none
  forwarded_from : Option String := none
  reply_to : Option String := none
deriving DecidableEq, Repr

/-- Rendering of one fragment, from the loop body of
`parse_text_field` (`Html_to_read.py`, lines 39-53). -/
def renderFrag : Frag → String
  | .str s => html_escape s
  | .obj ty tx hr =>
    let txt := tx.getD ""
    if ty = some "link" && truthyS hr then
      "<a href=\"" ++ html_escape (hr.getD "") ++ "\" target=\"_blank\">" ++
        html_escape txt ++ "</a>"
    else if ty = some "bot_command" then html_escape txt
    else html_escape txt

/-- Embedding of `parse_text_field` (`Html_to_read.py`, lines 32-55). -/
def parse_text_field : Option TextVal → String
  | none => ""
  | some (.str s) => html_escape s
  | some (.frags ps) => String.join (ps.map renderFrag)

/-- Embedding of `get_date` inside `generate_html`
(`Html_to_read.py`, lines 102-112): absent or unparseable dates get
`datetime.min`'s key; both parser fallbacks are tried in order. -/
def get_date (m : Message) : Nat :=
  match m.date with
  | none => dtMinKey
  | some d =>
    match fromisoformat d with
    | some t => dtKey t
    | none =>
      match strptimeT d with
      | some t => dtKey t
      | none => dtMinKey

/-- `sorted(messages, key=get_date)` (`Html_to_read.py`, line 113). -/
def sortMessages (msgs : List Message) : List Message :=
  sortByKey get_date msgs

/-- `m.get("from") or m.get("actor") or "Unknown"`
(`Html_to_read.py`, lines 93 and 115). -/
def authorOf (m : Message) : String :=
  py_or m.fromName (py_or m.actor "Unknown")

/-- ASCII whitespace, as stripped by `str.strip()`. -/
def isSpaceChar (c : Char) : Bool :=
  c = ' ' || c = '\t' || c = '\n' || c = '\r' || c.toNat = 11 || c.toNat = 12

/-- Model of `str.strip()` (ASCII whitespace). -/
def trimChars (l : List Char) : List Char :=
  ((l.dropWhile isSpaceChar).reverse.dropWhile isSpaceChar).reverse

/-- `author.strip()[:2].upper() if author.strip() else "U"`
(`Html_to_read.py`, line 95); upper-casing modelled per ASCII
character. -/
def initialOf (author : String) : String :=
  let t := trimChars author.toList
  if t = [] then "U" else String.mk ((t.take 2).map Char.toUpper)

/-- `participants.get(author, "U")` (`Html_to_read.py`, line 119). -/
def lookupInit (ps : List (String × String)) (a : String) : String :=
  match ps.find? (fun q => q.1 == a) with
  | some q => q.2
  | none => "U"

/-- The participant-initial map built over the full message list
(`Html_to_read.py`, lines 91-95); a Python dict keyed by author,
modelled as a first-insertion association list. -/
def buildParticipants (msgs : List Message) : List (String × String) :=
  msgs.foldl
    (fun ps m =>
      let author := authorOf m
      if (ps.find? (fun q => q.1 == author)).isSome then ps
      else ps ++ [(author, initialOf author)])
    []

/-- The fixed image-extension set shared by the `file`, `document`
and `media` branches (`Html_to_read.py`, lines 134, 146, 157, 164). -/
def imgExts : List String := ["jpg", "jpeg", "png", "gif", "webp", "bmp", "svg", "heic"]

/-- `copied.lower().split('.')[-1]` (`Html_to_read.py`, line 133);
lower-casing is modelled per character (ASCII, which covers the
extensions being compared). -/
def extOf (n : String) : String :=
  (((splitCharAux '.' [] (n.toList.map Char.toLower))).map String.mk).getLastD ""

/-- Extension-based classification: does the copied name render as an
inline image (where the branch performs this test)? -/
def isImageExt (n : String) : Bool := imgExts.contains (extOf n)

/-- The `photo` block (`Html_to_read.py`, line 129): always an inline
image, no extension test. -/
def photoBlock (mdir n : String) : String :=
  "<div class='media'><a href='" ++ mdir ++ "/" ++ html_escape n ++
    "' target='_blank'><img src='" ++ mdir ++ "/" ++ html_escape n ++
    "' alt='photo'></a></div>"

/-- The `file` image block (`Html_to_read.py`, line 135). -/
def fileImgBlock (mdir n : String) : String :=
  "<div class='media'><a href='" ++ mdir ++ "/" ++ html_escape n ++
    "' target='_blank'><img src='" ++ mdir ++ "/" ++ html_escape n ++
    "' alt='file'></a></div>"

/-- The `file` download block (`Html_to_read.py`, line 137). -/
def fileLinkBlock (mdir n : String) : String :=
  "<div class='media'><a href='" ++ mdir ++ "/" ++ html_escape n ++
    "' target='_blank'>Скачать файл: " ++ html_escape n ++ "</a></div>"

/-- The `document` image block (`Html_to_read.py`, line 147). -/
def docImgBlock (mdir n : String) : String :=
  "<div class='media'><a href='" ++ mdir ++ "/" ++ html_escape n ++
    "' target='_blank'><img src='" ++ mdir ++ "/" ++ html_escape n ++
    "'></a></div>"

/-- The `document` download block (`Html_to_read.py`, line 149). -/
def docLinkBlock (mdir n : String) : String :=
  "<div class='media'><a href='" ++ mdir ++ "/" ++ html_escape n ++
    "' target='_blank'>Скачать документ: " ++ html_escape n ++ "</a></div>"

/-- The `media` image block (`Html_to_read.py`, lines 158 and 165). -/
def mediaImgBlock (mdir n : String) : String :=
  "<div class='media'><a href='" ++ mdir ++ "/" ++ html_escape n ++
    "' target='_blank'><img src='" ++ mdir ++ "/" ++ html_escape n ++
    "'></a></div>"

/-- The `media` download block (`Html_to_read.py`, lines 160 and 167). -/
def mediaLinkBlock (mdir n : String) : String :=
  "<div class='media'><a href='" ++ mdir ++ "/" ++ html_escape n ++
    "' target='_blank'>Скачать: " ++ html_escape n ++ "</a></div>"

/-- The attachment block (`Html_to_read.py`, line 173): always a plain
link labelled by the copied name, no extension test. -/
def attBlock (mdir n : String) : String :=
  "<div class='media'><a href='" ++ mdir ++ "/" ++ html_escape n ++
    "' target='_blank'>" ++ html_escape n ++ "</a></div>"

/-- Embedding of the media part of the per-message loop
(`Html_to_read.py`, lines 125-175): the five keys `photo`, `file`,
`document`, `media`, `attachments` are processed in this order, each
appending its own blocks to `media_html_parts` and threading the file
system through the copies.  `none` models the uncaught `TypeError`
raised when a truthy `document` dict whose `file` value is falsy is
passed whole to `copy_media_file` (where `Path(dict)` raises). -/
def renderMediaSection (mdir : String) (b d : MPath) (m : Message) (fs : List MPath) :
    Option (List String × List MPath) :=
  let st0 : List String × List MPath := ([], fs)
  let st1 :=
    if truthyS m.photo then
      match copy_media_file st0.2 (m.photo.getD "") b d with
      | (some n, fs') =>
        if n ≠ "" then (st0.1 ++ [photoBlock mdir n], fs') else (st0.1, fs')
      | (none, fs') => (st0.1, fs')
    else st0
  let st2 :=
    if truthyS m.file then
      match copy_media_file st1.2 (m.file.getD "") b d with
      | (some n, fs') =>
        if n ≠ "" then
          (st1.1 ++ [if isImageExt n then fileImgBlock mdir n else fileLinkBlock mdir n], fs')
        else (st1.1, fs')
      | (none, fs') => (st1.1, fs')
    else st1
  let docStage : Option (List String × List MPath) :=
    match m.document with
    | none => some st2
    | some (.str s) =>
      if s ≠ "" then
        match copy_media_file st2.2 s b d with
        | (some n, fs') =>
          some (if n ≠ "" then
              (st2.1 ++ [if isImageExt n then docImgBlock mdir n else docLinkBlock mdir n], fs')
            else (st2.1, fs'))
        | (none, fs') => some (st2.1, fs')
      else some st2
    | some (.obj none) => some st2
    | some (.obj (some f)) =>
      if f ≠ "" then
        match copy_media_file st2.2 f b d with
        | (some n, fs') =>
          some (if n ≠ "" then
              (st2.1 ++ [if isImageExt n then docImgBlock mdir n else docLinkBlock mdir n], fs')
            else (st2.1, fs'))
        | (none, fs') => some (st2.1, fs')
      else none
  match docStage with
  | none => none
  | some st3 =>
    let st4 :=
      match m.media with
      | none => st3
      | some (.str s) =>
        if s ≠ "" then
          match copy_media_file st3.2 s b d with
          | (some n, fs') =>
            if n ≠ "" then
              (st3.1 ++ [if isImageExt n then mediaImgBlock mdir n else mediaLinkBlock mdir n], fs')
            else (st3.1, fs')
          | (none, fs') => (st3.1, fs')
        else st3
      | some (.obj f p pa dc) =>
        if f.isSome || p.isSome || pa.isSome || dc.isSome then
          let possible := py_or_opt f (py_or_opt p (py_or_opt pa dc))
          if truthyS possible then
            match copy_media_file st3.2 (possible.getD "") b d with
            | (some n, fs') =>
              if n ≠ "" then
                (st3.1 ++ [if isImageExt n then mediaImgBlock mdir n else mediaLinkBlock mdir n], fs')
              else (st3.1, fs')
            | (none, fs') => (st3.1, fs')
          else st3
        else st3
    let st5 :=
      match m.attachments with
      | none => st4
      | some atts =>
        if atts ≠ [] then
          atts.foldl
            (fun st att =>
              match att with
              | some f =>
                if f ≠ "" then
                  match copy_media_file st.2 f b d with
                  | (some n, fs') =>
                    if n ≠ "" then (st.1 ++ [attBlock mdir n], fs') else (st.1, fs')
                  | (none, fs') => (st.1, fs')
                else st
              | none => st)
            st4
        else st4
    some st5

/-- The `photo` branch alone (`Html_to_read.py`, lines 126-129), as a
state transformer on `(media_html_parts, file system)`. -/
def renderPhotoKey (mdir : String) (b d : MPath) (m : Message) :
    List String × List MPath → List String × List MPath := fun st =>
  if truthyS m.photo then
    match copy_media_file st.2 (m.photo.getD "") b d with
    | (some n, fs') =>
      if n ≠ "" then (st.1 ++ [photoBlock mdir n], fs') else (st.1, fs')
    | (none, fs') => (st.1, fs')
  else st

/-- The `file` branch alone (`Html_to_read.py`, lines 130-137). -/
def renderFileKey (mdir : String) (b d : MPath) (m : Message) :
    List String × List MPath → List String × List MPath := fun st =>
  if truthyS m.file then
    match copy_media_file st.2 (m.file.getD "") b d with
    | (some n, fs') =>
      if n ≠ "" then
        (st.1 ++ [if isImageExt n then fileImgBlock mdir n else fileLinkBlock mdir n], fs')
      else (st.1, fs')
    | (none, fs') => (st.1, fs')
  else st

/-- The `document` branch alone (`Html_to_read.py`, lines 138-149);
`none` is the `TypeError` raised for a truthy dict with falsy `file`. -/
def renderDocKey (mdir : String) (b d : MPath) (m : Message) :
    List String × List MPath → Option (List String × List MPath) := fun st =>
  match m.document with
  | none => some st
  | some (.str s) =>
    if s ≠ "" then
      match copy_media_file st.2 s b d with
      | (some n, fs') =>
        some (if n ≠ "" then
            (st.1 ++ [if isImageExt n then docImgBlock mdir n else docLinkBlock mdir n], fs')
          else (st.1, fs'))
      | (none, fs') => some (st.1, fs')
    else some st
  | some (.obj none) => some st
  | some (.obj (some f)) =>
    if f ≠ "" then
      match copy_media_file st.2 f b d with
      | (some n, fs') =>
        some (if n ≠ "" then
            (st.1 ++ [if isImageExt n then docImgBlock mdir n else docLinkBlock mdir n], fs')
          else (st.1, fs'))
      | (none, fs') => some (st.1, fs')
    else none

/-- The `media` branch alone (`Html_to_read.py`, lines 150-167). -/
def renderMediaKey (mdir : String) (b d : MPath) (m : Message) :
    List String × List MPath → List String × List MPath := fun st =>
  match m.media with
  | none => st
  | some (.str s) =>
    if s ≠ "" then
      match copy_media_file st.2 s b d with
      | (some n, fs') =>
        if n ≠ "" then
          (st.1 ++ [if isImageExt n then mediaImgBlock mdir n else mediaLinkBlock mdir n], fs')
        else (st.1, fs')
      | (none, fs') => (st.1, fs')
    else st
  | some (.obj f p pa dc) =>
    if f.isSome || p.isSome || pa.isSome || dc.isSome then
      let possible := py_or_opt f (py_or_opt p (py_or_opt pa dc))
      if truthyS possible then
        match copy_media_file st.2 (possible.getD "") b d with
        | (some n, fs') =>
          if n ≠ "" then
            (st.1 ++ [if isImageExt n then mediaImgBlock mdir n else mediaLinkBlock mdir n], fs')
          else (st.1, fs')
        | (none, fs') => (st.1, fs')
      else st
    else st

/-- The `attachments` branch alone (`Html_to_read.py`, lines 168-173). -/
def renderAttKey (mdir : String) (b d : MPath) (m : Message) :
    List String × List MPath → List String × List MPath := fun st =>
  match m.attachments with
  | none => st
  | some atts =>
    if atts ≠ [] then
      atts.foldl
        (fun st att =>
          match att with
          | some f =>
            if f ≠ "" then
              match copy_media_file st.2 f b d with
              | (some n, fs') =>
                if n ≠ "" then (st.1 ++ [attBlock mdir n], fs') else (st.1, fs')
              | (none, fs') => (st.1, fs')
            else st
          | none => st)
        st
    else st

/-- Embedding of one iteration of the message loop
(`Html_to_read.py`, lines 114-181): avatar, meta line, optional text
block, media blocks, forwarding and reply annotations.  `none` models
an uncaught exception from the media section. -/
def renderMessage (participants : List (String × String)) (mdir : String) (b d : MPath)
    (m : Message) (fs : List MPath) : Option (List String × List MPath) :=
  let author := authorOf m
  let date := iso_to_local (m.date.getD "")
  let text_html := parse_text_field m.text
  let initial := lookupInit participants author
  match renderMediaSection mdir b d m fs with
  | none => none
  | some (mediaParts, fs') =>
    some
      (["<div class='msg'>",
        "<div class='avatar' title='" ++ html_escape author ++ "'>" ++
          html_escape initial ++ "</div>",
        "<div class='body'>",
        "<div class='meta'><strong>" ++ html_escape author ++
          "</strong> · <span class='small'>" ++ html_escape date ++ "</span></div>"] ++
        (if text_html ≠ "" then ["<div class='text'>" ++ text_html ++ "</div>"] else []) ++
        mediaParts ++
        (if truthyS m.forwarded_from then
          ["<div class='small'>Переслано от: " ++
            html_escape (m.forwarded_from.getD "") ++ "</div>"]
         else []) ++
        (if truthyS m.reply_to then
          ["<div class='small'>В ответ на сообщение id: " ++
            html_escape (m.reply_to.getD "") ++ "</div>"]
         else []) ++
        ["</div>", "</div>"],
       fs')

/-- The message loop over a (sorted) list, threading the file system;
`none` models an exception aborting the remaining messages. -/
def renderMessages (participants : List (String × String)) (mdir : String) (b d : MPath)
    (msgs : List Message) (fs : List MPath) : Option (List String × List MPath) :=
  match msgs with
  | [] => some ([], fs)
  | m :: rest =>
    match renderMessage participants mdir b d m fs with
    | none => none
    | some (blk, fs') =>
      match renderMessages participants mdir b d rest fs' with
      | none => none
      | some (blks, fs'') => some (blk ++ blks, fs'')

/-! ## Supporting lemmas for the claims -/

/-- A failed copy leaves the file system untouched. -/
theorem copy_none_eq (fs : List MPath) (p : String) (b d : MPath)
    (h : (copy_media_file fs p b d).1 = none) :
    copy_media_file fs p b d = (none, fs) := by
  unfold copy_media_file at h ⊢
  by_cases hp : p = ""
  · simp [hp]
  · simp only [if_neg hp] at h ⊢
    cases hr : resolveMedia fs p b with
    | none => rfl
    | some s =>
      rw [hr] at h
      by_cases hd : pexists fs (joinPath d (relSingle s.name)) = true
      · simp [hd] at h
      · simp [hd] at h

/-- Substring occurrence test, used to state "is an image element". -/
def leadsChars : List Char → List Char → Bool
  | [], _ => true
  | _ :: _, [] => false
  | a :: as, b :: bs => a = b && leadsChars as bs

/-- Does `pat` occur inside `hay`? -/
def occursChars : List Char → List Char → Bool
  | pat, [] => pat.isEmpty
  | pat, c :: rest => leadsChars pat (c :: rest) || occursChars pat rest

/-- Does the string `pat` occur inside `hay`? -/
def strContains (hay pat : String) : Bool := occursChars pat.toList hay.toList

/-- The monolithic media section is the sequential composition of the
five per-key branches (shared helper). -/
theorem renderMediaSection_eq_stages (mdir : String) (b d : MPath) (m : Message)
    (fs : List MPath) :
    renderMediaSection mdir b d m fs =
      match renderDocKey mdir b d m
          (renderFileKey mdir b d m (renderPhotoKey mdir b d m ([], fs))) with
      | none => none
      | some st => some (renderAttKey mdir b d m (renderMediaKey mdir b d m st)) := rfl

/-- The attachments fold leaves the state unchanged when every
attachment's copy fails against the current file system. -/
theorem attFold_nochange (mdir : String) (b d : MPath) (fs : List MPath)
    (l : List (Option String))
    (hl : ∀ f, (some f) ∈ l → f ≠ "" → copy_media_file fs f b d = (none, fs)) :
    l.foldl
      (fun st att =>
        match att with
        | some f =>
          if f ≠ "" then
            match copy_media_file st.2 f b d with
            | (some n, fs') =>
              if n ≠ "" then (st.1 ++ [attBlock mdir n], fs') else (st.1, fs')
            | (none, fs') => (st.1, fs')
          else st
        | none => st)
      ([], fs) = ([], fs) := by
  induction l with
  | nil => rfl
  | cons a t ih =>
    cases a with
    | none =>
      rw [List.foldl_cons]
      exact ih (fun f hf hne => hl f (List.mem_cons_of_mem _ hf) hne)
    | some f =>
      rw [List.foldl_cons]
      by_cases hf : f ≠ ""
      · have hc := hl f (List.mem_cons_self _ _) hf
        have ih' := ih (fun g hg hne => hl g (List.mem_cons_of_mem _ hg) hne)
        refine Eq.trans ?_ ih'
        congr 1
        simp [hf, hc]
      · have ih' := ih (fun g hg hne => hl g (List.mem_cons_of_mem _ hg) hne)
        refine Eq.trans ?_ ih'
        congr 1
        simp [hf]

/-! ## Claims -/

/-- C1: the Document Assembler sorts message blocks into non-decreasing
order of parsed timestamp (`sorted(messages, key=get_date)`,
`Html_to_read.py`, lines 102-113); absent or unparseable dates yield
`datetime.min`'s sort key; the sort is a permutation and stable (equal
keys keep input order); `get_date` is a total function, so the key
computation never raises. -/
theorem c1_sorted_stable_min (msgs : List Message) :
    List.Pairwise (fun a b => get_date a ≤ get_date b) (sortMessages msgs) ∧
    (sortMessages msgs).Perm msgs ∧
    (∀ k, (sortMessages msgs).filter (fun m => get_date m == k) =
          msgs.filter (fun m => get_date m == k)) ∧
    (∀ m : Message, m.date = none → get_date m = dtMinKey) ∧
    (∀ (m : Message) (d : String), m.date = some d →
        fromisoformat d = none → strptimeT d = none → get_date m = dtMinKey) := by
  refine ⟨sortByKey_pairwise _ _, sortByKey_perm _ _, sortByKey_stable _ _, ?_, ?_⟩
  · intro m h
    simp [get_date, h]
  · intro m d h h1 h2
    simp [get_date, h, h1, h2]

/-- Witness for C1 at concrete inputs: a missing date and a garbage
date both get the minimum sort key, and a two-message list with equal
unparseable dates keeps its input order after sorting. -/
theorem c1_sorted_stable_min_witness :
    get_date ({ date := none } : Message) = dtMinKey ∧
    get_date ({ date := some "garbage" } : Message) = dtMinKey ∧
    sortMessages [({ date := some "", text := some (.str "first") } : Message),
                  ({ date := some "", text := some (.str "second") } : Message)] =
      [({ date := some "", text := some (.str "first") } : Message),
       ({ date := some "", text := some (.str "second") } : Message)] :=
  ⟨(c1_sorted_stable_min []).2.2.2.1 _ rfl,
   (c1_sorted_stable_min []).2.2.2.2 _ "garbage" rfl (by decide) (by decide),
   by decide⟩

/-- C7: `iso_to_local` (`Html_to_read.py`, lines 57-65) first tries a
strict ISO parse and reformats to `YYYY-MM-DD HH:MM:SS` (the shape
`fmtDT` produces), then the fixed `%Y-%m-%dT%H:%M:%S` pattern with the
same reformat, and on total failure returns the input unchanged; it is
a total function, so no input raises. -/
theorem c7_iso_to_local (s : String) :
    (∀ t, fromisoformat s = some t → iso_to_local s = fmtDT t) ∧
    (fromisoformat s = none → ∀ t, strptimeT s = some t → iso_to_local s = fmtDT t) ∧
    (fromisoformat s = none → strptimeT s = none → iso_to_local s = s) := by
  refine ⟨?_, ?_, ?_⟩
  · intro t h
    simp [iso_to_local, h]
  · intro h t h2
    simp [iso_to_local, h, h2]
  · intro h h2
    simp [iso_to_local, h, h2]

/-- Witness for C7: all three branches exercised at concrete inputs —
an ISO timestamp, a timestamp only the `strptime` fallback accepts
(unpadded month), and an unparseable string returned unchanged. -/
theorem c7_iso_to_local_witness :
    iso_to_local "2024-01-01T10:00:00" = fmtDT ⟨2024, 1, 1, 10, 0, 0⟩ ∧
    iso_to_local "2024-1-02T03:04:05" = fmtDT ⟨2024, 1, 2, 3, 4, 5⟩ ∧
    iso_to_local "not a date" = "not a date" :=
  ⟨(c7_iso_to_local "2024-01-01T10:00:00").1 _ (by decide),
   (c7_iso_to_local "2024-1-02T03:04:05").2.1 (by decide) _ (by decide),
   (c7_iso_to_local "not a date").2.2 (by decide) (by decide)⟩

/-- C8: a fragment object with type `"link"` and a truthy `href`
renders as exactly an anchor whose `href` attribute is the escaped
input href, whose label is the escaped fragment text, and which opens
in a new context (`parse_text_field`, `Html_to_read.py`, lines 45-47);
in particular the spec's end-to-end example renders as stated. -/
theorem c8_link_render :
    (∀ tx hr : Option String, truthyS hr = true →
        renderFrag (.obj (some "link") tx hr) =
          "<a href=\"" ++ html_escape (hr.getD "") ++ "\" target=\"_blank\">" ++
            html_escape (tx.getD "") ++ "</a>") ∧
    parse_text_field (some (.frags
        [.str "see ", .obj (some "link") (some "this") (some "http://x.test")])) =
      "see <a href=\"http://x.test\" target=\"_blank\">this</a>" := by
  constructor
  · intro tx hr h
    simp [renderFrag, h]
  · decide

/-- Witness for C8 at the spec's concrete link fragment. -/
theorem c8_link_render_witness :
    renderFrag (.obj (some "link") (some "this") (some "http://x.test")) =
      "<a href=\"" ++ html_escape "http://x.test" ++ "\" target=\"_blank\">" ++
        html_escape "this" ++ "</a>" :=
  c8_link_render.1 (some "this") (some "http://x.test") (by decide)

/-- C4: the Media Resolver's selection order (`copy_media_file`,
`Html_to_read.py`, lines 67-85): an absolute path is used as-is (a
relative one is resolved against the source root); if that location
exists it wins, else the candidates `<root>/media/<basename>`,
`<root>/files/<basename>`, `<root>/<basename>` are probed in order,
first existing one winning; when nothing exists the call returns a
`None` result with the file system untouched (all functions involved
are total, so nothing raises). -/
theorem c4_resolution_order (fs : List MPath) (p : String) (b d : MPath) :
    ((parsePath p).absolute = true → srcCand p b = parsePath p) ∧
    ((parsePath p).absolute = false → srcCand p b = joinPath b (parsePath p)) ∧
    (pexists fs (srcCand p b) = true →
      resolveMedia fs p b = some (srcCand p b)) ∧
    (pexists fs (srcCand p b) = false →
      pexists fs (probeCand p b "media") = true →
      resolveMedia fs p b = some (probeCand p b "media")) ∧
    (pexists fs (srcCand p b) = false →
      pexists fs (probeCand p b "media") = false →
      pexists fs (probeCand p b "files") = true →
      resolveMedia fs p b = some (probeCand p b "files")) ∧
    (pexists fs (srcCand p b) = false →
      pexists fs (probeCand p b "media") = false →
      pexists fs (probeCand p b "files") = false →
      pexists fs (probeCand p b "") = true →
      resolveMedia fs p b = some (probeCand p b "")) ∧
    (pexists fs (srcCand p b) = false →
      pexists fs (probeCand p b "media") = false →
      pexists fs (probeCand p b "files") = false →
      pexists fs (probeCand p b "") = false →
      copy_media_file fs p b d = (none, fs)) := by
  refine ⟨?_, ?_, ?_, ?_, ?_, ?_, ?_⟩
  · intro h
    simp [srcCand, h]
  · intro h
    simp [srcCand, h]
  · intro h1
    simp [resolveMedia, h1]
  · intro h1 h2
    simp [resolveMedia, h1, h2]
  · intro h1 h2 h3
    simp [resolveMedia, h1, h2, h3]
  · intro h1 h2 h3 h4
    simp [resolveMedia, h1, h2, h3, h4]
  · intro h1 h2 h3 h4
    by_cases hp : p = ""
    · simp [copy_media_file, hp]
    · simp [copy_media_file, hp, resolveMedia, h1, h2, h3, h4]

/-- Witness for C4: a file present only under `<root>/files/` is found
by the second probe, and an unresolvable reference yields `(none, fs)`
with the file system unchanged. -/
theorem c4_resolution_order_witness :
    resolveMedia [MPath.mk true ["base", "files", "x.pdf"]] "x.pdf"
        (MPath.mk true ["base"]) =
      some (probeCand "x.pdf" (MPath.mk true ["base"]) "files") ∧
    copy_media_file [] "x.pdf" (MPath.mk true ["base"]) (MPath.mk true ["out", "media"]) =
      (none, []) :=
  ⟨((c4_resolution_order [MPath.mk true ["base", "files", "x.pdf"]] "x.pdf"
      (MPath.mk true ["base"]) (MPath.mk true ["out", "media"])).2.2.2.2.1
      (by decide) (by decide) (by decide)),
   ((c4_resolution_order [] "x.pdf" (MPath.mk true ["base"])
      (MPath.mk true ["out", "media"])).2.2.2.2.2.2
      (by decide) (by decide) (by decide) (by decide))⟩

/-- C5: the Media Resolver is idempotent for any media path with a
nonempty base name: the second of two identical calls finds the
destination file already present, performs no copy (the file system is
unchanged), and returns the same base name (`copy_media_file`,
`Html_to_read.py`, lines 79-85).  (A path with an empty base name,
such as `/` or `.`, denotes a directory, on which the real `copy2`
call raises before any idempotence question arises.) -/
theorem c5_copy_idempotent (fs : List MPath) (p : String) (b d : MPath)
    (hn : (parsePath p).name ≠ "") :
    (copy_media_file (copy_media_file fs p b d).2 p b d).1 = (copy_media_file fs p b d).1 ∧
    (copy_media_file (copy_media_file fs p b d).2 p b d).2 = (copy_media_file fs p b d).2 := by
  have hp : p ≠ "" := by
    intro he
    apply hn
    rw [he]
    decide
  cases hr : resolveMedia fs p b with
  | none =>
    have e1 : copy_media_file fs p b d = (none, fs) := by
      simp [copy_media_file, hp, hr]
    simp [e1]
  | some s =>
    have hs : s.name = (parsePath p).name := resolveMedia_name hn hr
    by_cases hd : pexists fs (joinPath d (relSingle s.name)) = true
    · have e1 : copy_media_file fs p b d =
          (some (joinPath d (relSingle s.name)).name, fs) := by
        simp [copy_media_file, hp, hr, hd]
      simp [e1]
    · have e1 : copy_media_file fs p b d =
          (some (joinPath d (relSingle s.name)).name,
           joinPath d (relSingle s.name) :: fs) := by
        simp [copy_media_file, hp, hr, hd]
      obtain ⟨s', hs'⟩ :=
        resolveMedia_mono (x := joinPath d (relSingle s.name)) hr
      have hs'n : s'.name = (parsePath p).name := resolveMedia_name hn hs'
      have hdst : joinPath d (relSingle s'.name) = joinPath d (relSingle s.name) := by
        rw [hs'n, hs]
      have e2 : copy_media_file (joinPath d (relSingle s.name) :: fs) p b d =
          (some (joinPath d (relSingle s.name)).name,
           joinPath d (relSingle s.name) :: fs) := by
        simp [copy_media_file, hp, hs', hdst, pexists]
      simp [e1, e2]

/-- Witness for C5: copying `a.jpg` twice from the same root copies it
once; the second call returns the same name and adds nothing. -/
theorem c5_copy_idempotent_witness :
    (parsePath "a.jpg").name ≠ "" ∧
    (copy_media_file
        (copy_media_file [MPath.mk true ["base", "a.jpg"]] "a.jpg"
          (MPath.mk true ["base"]) (MPath.mk true ["out", "media"])).2
        "a.jpg" (MPath.mk true ["base"]) (MPath.mk true ["out", "media"])).2 =
      (copy_media_file [MPath.mk true ["base", "a.jpg"]] "a.jpg"
        (MPath.mk true ["base"]) (MPath.mk true ["out", "media"])).2 :=
  ⟨by decide,
   (c5_copy_idempotent [MPath.mk true ["base", "a.jpg"]] "a.jpg"
      (MPath.mk true ["base"]) (MPath.mk true ["out", "media"]) (by decide)).2⟩

/-- C3: the media part of the message loop (`Html_to_read.py`, lines
125-175) is exactly the sequential composition of the five key
branches, in the fixed order `photo`, `file`, `document` (which
unwraps a nested `file` key from a dict), `media`, `attachments`; the
keys form a union, each present-and-resolving key contributing its own
block.  The closed conjunct shows a message carrying both `photo` and
`file` rendering both blocks, in that order. -/
theorem c3_media_union_order :
    (∀ (mdir : String) (b d : MPath) (m : Message) (fs : List MPath),
      renderMediaSection mdir b d m fs =
        match renderDocKey mdir b d m
            (renderFileKey mdir b d m (renderPhotoKey mdir b d m ([], fs))) with
        | none => none
        | some st => some (renderAttKey mdir b d m (renderMediaKey mdir b d m st))) ∧
    renderMediaSection "media" (MPath.mk true ["base"]) (MPath.mk true ["out", "media"])
        { photo := some "a.jpg", file := some "b.txt" }
        [MPath.mk true ["base", "a.jpg"], MPath.mk true ["base", "b.txt"]] =
      some ([photoBlock "media" "a.jpg", fileLinkBlock "media" "b.txt"],
        [MPath.mk true ["out", "media", "b.txt"], MPath.mk true ["out", "media", "a.jpg"],
         MPath.mk true ["base", "a.jpg"], MPath.mk true ["base", "b.txt"]]) := by
  constructor
  · intro mdir b d m fs
    rfl
  · decide

/-- C9: when the `media` value is an object, at most one block is
produced from it, and the value handed to the resolver is selected by
the first-truthy precedence `file`, `photo`, `path`, `document`
(`Html_to_read.py`, lines 150-160) — the Python `or` chain — so the
keys inside a `media` dict are mutually exclusive. -/
theorem c9_media_dict_precedence (mdir : String) (b d : MPath) (fs : List MPath)
    (f p pa dc : Option String) (m : Message)
    (hm : m.media = some (.obj f p pa dc)) :
    (renderMediaKey mdir b d m ([], fs)).1.length ≤ 1 ∧
    (truthyS f = true → py_or_opt f (py_or_opt p (py_or_opt pa dc)) = f) ∧
    (truthyS f = false → truthyS p = true →
      py_or_opt f (py_or_opt p (py_or_opt pa dc)) = p) ∧
    (truthyS f = false → truthyS p = false → truthyS pa = true →
      py_or_opt f (py_or_opt p (py_or_opt pa dc)) = pa) ∧
    (truthyS f = false → truthyS p = false → truthyS pa = false →
      py_or_opt f (py_or_opt p (py_or_opt pa dc)) = dc) := by
  refine ⟨?_, ?_, ?_, ?_, ?_⟩
  · rw [renderMediaKey]
    simp only [hm]
    by_cases ht : (f.isSome || p.isSome || pa.isSome || dc.isSome) = true
    · rw [if_pos ht]
      by_cases hpos : truthyS (py_or_opt f (py_or_opt p (py_or_opt pa dc))) = true
      · rw [if_pos hpos]
        cases hc : copy_media_file fs
            ((py_or_opt f (py_or_opt p (py_or_opt pa dc))).getD "") b d with
        | mk r fs' =>
          cases r with
          | none => simp
          | some n =>
            by_cases hn : n = ""
            · simp [hn]
            · simp [hn]
      · rw [if_neg hpos]
        simp
    · rw [if_neg ht]
      simp
  · intro h1
    cases f with
    | none => simp [truthyS] at h1
    | some s =>
      simp only [truthyS, ne_eq, decide_eq_true_eq] at h1
      simp [py_or_opt, h1]
  · intro h1 h2
    cases f with
    | none =>
      cases p with
      | none => simp [truthyS] at h2
      | some s =>
        simp only [truthyS, ne_eq, decide_eq_true_eq] at h2
        simp [py_or_opt, h2]
    | some s =>
      simp only [truthyS, ne_eq, decide_eq_true_eq, Bool.not_eq_true] at h1
      have : s = "" := by
        by_contra hc
        simp [truthyS, hc] at h1
      cases p with
      | none => simp [truthyS] at h2
      | some t =>
        simp only [truthyS, ne_eq, decide_eq_true_eq] at h2
        simp [py_or_opt, this, h2]
  · intro h1 h2 h3
    have e1 : py_or_opt pa dc = pa := by
      cases pa with
      | none => simp [truthyS] at h3
      | some s =>
        simp only [truthyS, ne_eq, decide_eq_true_eq] at h3
        simp [py_or_opt, h3]
    have e2 : py_or_opt p pa = pa := by
      cases p with
      | none => simp [py_or_opt]
      | some t =>
        have : t = "" := by
          by_contra hc
          simp [truthyS, hc] at h2
        simp [py_or_opt, this]
    rw [e1]
    cases f with
    | none => simp [py_or_opt] at e2 ⊢; exact e2
    | some s =>
      have : s = "" := by
        by_contra hc
        simp [truthyS, hc] at h1
      simp only [py_or_opt, this, if_pos]
      simpa [py_or_opt] using e2
  · intro h1 h2 h3
    have e1 : py_or_opt pa dc = dc := by
      cases pa with
      | none => simp [py_or_opt]
      | some s =>
        have : s = "" := by
          by_contra hc
          simp [truthyS, hc] at h3
        simp [py_or_opt, this]
    have e2 : ∀ x, truthyS x = false → py_or_opt x dc = dc := by
      intro x hx
      cases x with
      | none => simp [py_or_opt]
      | some s =>
        have : s = "" := by
          by_contra hc
          simp [truthyS, hc] at hx
        simp [py_or_opt, this]
    calc py_or_opt f (py_or_opt p (py_or_opt pa dc))
        = py_or_opt f (py_or_opt p dc) := by rw [e1]
      _ = py_or_opt f dc := by
          cases p with
          | none => rfl
          | some t =>
            have : t = "" := by
              by_contra hc
              simp [truthyS, hc] at h2
            simp [py_or_opt, this]
      _ = dc := e2 f h1

/-- Witness for C9: a `media` dict with both `photo` and `path` keys
(no truthy `file`) selects `photo` and renders a single block. -/
theorem c9_media_dict_precedence_witness :
    ((renderMediaKey "media" (MPath.mk true ["base"]) (MPath.mk true ["out", "media"])
        { media := some (.obj none (some "x.png") (some "y.pdf") none) }
        ([], [MPath.mk true ["base", "x.png"]])).1.length ≤ 1) ∧
    py_or_opt none (py_or_opt (some "x.png") (py_or_opt (some "y.pdf") none)) =
      some "x.png" :=
  ⟨(c9_media_dict_precedence "media" (MPath.mk true ["base"]) (MPath.mk true ["out", "media"])
      [MPath.mk true ["base", "x.png"]] none (some "x.png") (some "y.pdf") none
      { media := some (.obj none (some "x.png") (some "y.pdf") none) } rfl).1,
   (c9_media_dict_precedence "media" (MPath.mk true ["base"]) (MPath.mk true ["out", "media"])
      [MPath.mk true ["base", "x.png"]] none (some "x.png") (some "y.pdf") none
      { media := some (.obj none (some "x.png") (some "y.pdf") none) } rfl).2.2.1
      (by decide) (by decide)⟩

/-- C10: a `from` field that is present but empty is treated exactly
like an absent one (`m.get("from") or m.get("actor") or "Unknown"`,
`Html_to_read.py`, lines 93 and 115): the author falls through to
`actor` and then to `"Unknown"`, and the whole rendered message block
(avatar initial included) equals the one of the same message without a
`from` key. -/
theorem c10_falsy_from (m : Message) (participants : List (String × String))
    (mdir : String) (b d : MPath) (fs : List MPath)
    (h : m.fromName = some "") :
    authorOf m = authorOf { m with fromName := none } ∧
    (m.actor = none → authorOf m = "Unknown") ∧
    (m.actor = some "" → authorOf m = "Unknown") ∧
    (∀ a, m.actor = some a → a ≠ "" → authorOf m = a) ∧
    renderMessage participants mdir b d m fs =
      renderMessage participants mdir b d { m with fromName := none } fs := by
  have ha : authorOf m = py_or m.actor "Unknown" := by
    simp [authorOf, h, py_or]
  have ha' : authorOf { m with fromName := none } = py_or m.actor "Unknown" := by
    simp [authorOf, py_or]
  refine ⟨ha.trans ha'.symm, ?_, ?_, ?_, ?_⟩
  · intro hact
    simp [ha, hact, py_or]
  · intro hact
    simp [ha, hact, py_or]
  · intro a hact hne
    simp [ha, hact, py_or, hne]
  · have hmedia : renderMediaSection mdir b d { m with fromName := none } fs =
        renderMediaSection mdir b d m fs := rfl
    rw [renderMessage, renderMessage, hmedia, ha.trans ha'.symm]

/-- Witness for C10: a concrete message with `from = ""` and no actor
renders identically to the same message without `from`, with author
`"Unknown"`. -/
theorem c10_falsy_from_witness :
    authorOf ({ fromName := some "", text := some (.str "hi") } : Message) = "Unknown" ∧
    renderMessage [] "media" (MPath.mk true ["base"]) (MPath.mk true ["out", "media"])
        ({ fromName := some "", text := some (.str "hi") } : Message) [] =
      renderMessage [] "media" (MPath.mk true ["base"]) (MPath.mk true ["out", "media"])
        ({ text := some (.str "hi") } : Message) [] :=
  ⟨(c10_falsy_from { fromName := some "", text := some (.str "hi") } [] "media"
      (MPath.mk true ["base"]) (MPath.mk true ["out", "media"]) [] rfl).2.1 rfl,
   (c10_falsy_from { fromName := some "", text := some (.str "hi") } [] "media"
      (MPath.mk true ["base"]) (MPath.mk true ["out", "media"]) [] rfl).2.2.2.2⟩

/-- C2 counterexample: the claimed extension classification is NOT
uniform across the media keys.  A resolving `photo` reference with the
non-image extension `txt` still renders an inline image element
(`Html_to_read.py`, line 129 has no extension test), and a resolving
attachment with the image extension `jpg` renders a plain link with no
image element (line 173 has no extension test either). -/
theorem c2_counterexample :
    isImageExt "p.txt" = false ∧
    renderMediaSection "media" (MPath.mk true ["base"]) (MPath.mk true ["out", "media"])
        { photo := some "p.txt" } [MPath.mk true ["base", "p.txt"]] =
      some ([photoBlock "media" "p.txt"],
        [MPath.mk true ["out", "media", "p.txt"], MPath.mk true ["base", "p.txt"]]) ∧
    strContains (photoBlock "media" "p.txt") "<img" = true ∧
    isImageExt "c.jpg" = true ∧
    renderMediaSection "media" (MPath.mk true ["base"]) (MPath.mk true ["out", "media"])
        { attachments := some [some "c.jpg"] } [MPath.mk true ["base", "c.jpg"]] =
      some ([attBlock "media" "c.jpg"],
        [MPath.mk true ["out", "media", "c.jpg"], MPath.mk true ["base", "c.jpg"]]) ∧
    strContains (attBlock "media" "c.jpg") "<img" = false := by
  decide

/-- C2 amended: the case-insensitive extension classification (image
element for `jpg, jpeg, png, gif, webp, bmp, svg, heic`, downloadable
link otherwise) governs the `file`, `document` and `media` keys — with
a fixed download caption before the file-name label — while `photo`
always renders an inline image and `attachments` always render a plain
link labelled by the file name, regardless of extension
(`Html_to_read.py`, lines 126-173). -/
theorem c2_amended (mdir : String) (b d : MPath) (fs : List MPath) (m : Message)
    (n : String) :
    (truthyS m.file = true →
      (copy_media_file fs (m.file.getD "") b d).1 = some n → n ≠ "" →
      renderFileKey mdir b d m ([], fs) =
        ([if isImageExt n then fileImgBlock mdir n else fileLinkBlock mdir n],
         (copy_media_file fs (m.file.getD "") b d).2)) ∧
    (∀ s, m.document = some (.str s) → s ≠ "" →
      (copy_media_file fs s b d).1 = some n → n ≠ "" →
      renderDocKey mdir b d m ([], fs) =
        some ([if isImageExt n then docImgBlock mdir n else docLinkBlock mdir n],
          (copy_media_file fs s b d).2)) ∧
    (∀ f, m.document = some (.obj (some f)) → f ≠ "" →
      (copy_media_file fs f b d).1 = some n → n ≠ "" →
      renderDocKey mdir b d m ([], fs) =
        some ([if isImageExt n then docImgBlock mdir n else docLinkBlock mdir n],
          (copy_media_file fs f b d).2)) ∧
    (∀ s, m.media = some (.str s) → s ≠ "" →
      (copy_media_file fs s b d).1 = some n → n ≠ "" →
      renderMediaKey mdir b d m ([], fs) =
        ([if isImageExt n then mediaImgBlock mdir n else mediaLinkBlock mdir n],
         (copy_media_file fs s b d).2)) ∧
    (truthyS m.photo = true →
      (copy_media_file fs (m.photo.getD "") b d).1 = some n → n ≠ "" →
      renderPhotoKey mdir b d m ([], fs) =
        ([photoBlock mdir n], (copy_media_file fs (m.photo.getD "") b d).2)) ∧
    (∀ f, m.attachments = some [some f] → f ≠ "" →
      (copy_media_file fs f b d).1 = some n → n ≠ "" →
      renderAttKey mdir b d m ([], fs) =
        ([attBlock mdir n], (copy_media_file fs f b d).2)) := by
  refine ⟨?_, ?_, ?_, ?_, ?_, ?_⟩
  · intro ht hcopy hn
    cases hcc : copy_media_file fs (m.file.getD "") b d with
    | mk r fs2 =>
      rw [hcc] at hcopy
      have hr : r = some n := hcopy
      subst hr
      simp [renderFileKey, ht, hcc, hn]
  · intro s hdoc hs hcopy hn
    cases hcc : copy_media_file fs s b d with
    | mk r fs2 =>
      rw [hcc] at hcopy
      have hr : r = some n := hcopy
      subst hr
      simp [renderDocKey, hdoc, hs, hcc, hn]
  · intro f hdoc hf hcopy hn
    cases hcc : copy_media_file fs f b d with
    | mk r fs2 =>
      rw [hcc] at hcopy
      have hr : r = some n := hcopy
      subst hr
      simp [renderDocKey, hdoc, hf, hcc, hn]
  · intro s hmed hs hcopy hn
    cases hcc : copy_media_file fs s b d with
    | mk r fs2 =>
      rw [hcc] at hcopy
      have hr : r = some n := hcopy
      subst hr
      simp [renderMediaKey, hmed, hs, hcc, hn]
  · intro ht hcopy hn
    cases hcc : copy_media_file fs (m.photo.getD "") b d with
    | mk r fs2 =>
      rw [hcc] at hcopy
      have hr : r = some n := hcopy
      subst hr
      simp [renderPhotoKey, ht, hcc, hn]
  · intro f hat hf hcopy hn
    cases hcc : copy_media_file fs f b d with
    | mk r fs2 =>
      rw [hcc] at hcopy
      have hr : r = some n := hcopy
      subst hr
      simp [renderAttKey, hat, hf, hcc, hn]

/-- Witness for C2 amended: the `file` key classifies `b.txt` (via the
extension test) and the `photo` key renders `p.txt` as an image. -/
theorem c2_amended_witness :
    renderFileKey "media" (MPath.mk true ["base"]) (MPath.mk true ["out", "media"])
        { file := some "b.txt" } ([], [MPath.mk true ["base", "b.txt"]]) =
      ([if isImageExt "b.txt" then fileImgBlock "media" "b.txt"
        else fileLinkBlock "media" "b.txt"],
       (copy_media_file [MPath.mk true ["base", "b.txt"]] "b.txt"
          (MPath.mk true ["base"]) (MPath.mk true ["out", "media"])).2) ∧
    renderPhotoKey "media" (MPath.mk true ["base"]) (MPath.mk true ["out", "media"])
        { photo := some "p.txt" } ([], [MPath.mk true ["base", "p.txt"]]) =
      ([photoBlock "media" "p.txt"],
       (copy_media_file [MPath.mk true ["base", "p.txt"]] "p.txt"
          (MPath.mk true ["base"]) (MPath.mk true ["out", "media"])).2) :=
  ⟨(c2_amended "media" (MPath.mk true ["base"]) (MPath.mk true ["out", "media"])
      [MPath.mk true ["base", "b.txt"]] { file := some "b.txt" } "b.txt").1
      (by decide) (by decide) (by decide),
   (c2_amended "media" (MPath.mk true ["base"]) (MPath.mk true ["out", "media"])
      [MPath.mk true ["base", "p.txt"]] { photo := some "p.txt" } "p.txt").2.2.2.2.1
      (by decide) (by decide) (by decide)⟩

/-- C6 counterexample: the claim's "never an exception" fails for one
empty media-reference shape.  A `document` dict whose `file` value is
present but falsy is passed whole to `copy_media_file` (the unwrap
test `doc.get("file")` fails, `Html_to_read.py`, lines 140-143), where
`Path(dict)` raises an uncaught `TypeError`; `none` is the model's
exception marker, and the second conjunct shows the exception also
aborting the processing of the remaining messages. -/
theorem c6_counterexample :
    renderMediaSection "media" (MPath.mk true ["base"]) (MPath.mk true ["out", "media"])
        { document := some (.obj (some "")) } [] = none ∧
    renderMessages [] "media" (MPath.mk true ["base"]) (MPath.mk true ["out", "media"])
        [{ document := some (.obj (some "")) }, { text := some (.str "later") }] [] =
      none := by
  decide

/-- C6 amended: for every media reference that is empty/absent or
whose resolution finds no existing file — excluding the one crashing
shape above (a truthy `document` dict with falsy `file`) — no media
markup is emitted, no exception is raised, the file system is left
unchanged, and rendering of the rest of the message and of all
remaining messages proceeds unchanged. -/
theorem c6_amended (participants : List (String × String)) (mdir : String) (b d : MPath)
    (fs : List MPath) (m : Message)
    (hphoto : truthyS m.photo = true → (copy_media_file fs (m.photo.getD "") b d).1 = none)
    (hfile : truthyS m.file = true → (copy_media_file fs (m.file.getD "") b d).1 = none)
    (hdocs : ∀ s, m.document = some (.str s) → s ≠ "" →
      (copy_media_file fs s b d).1 = none)
    (hdocf : ∀ f, m.document = some (.obj (some f)) →
      f ≠ "" ∧ (copy_media_file fs f b d).1 = none)
    (hmeds : ∀ s, m.media = some (.str s) → s ≠ "" →
      (copy_media_file fs s b d).1 = none)
    (hmedo : ∀ f p pa dc, m.media = some (.obj f p pa dc) →
      truthyS (py_or_opt f (py_or_opt p (py_or_opt pa dc))) = true →
      (copy_media_file fs ((py_or_opt f (py_or_opt p (py_or_opt pa dc))).getD "") b d).1 =
        none)
    (hatt : ∀ atts f, m.attachments = some atts → (some f) ∈ atts → f ≠ "" →
      (copy_media_file fs f b d).1 = none) :
    renderMediaSection mdir b d m fs = some ([], fs) ∧
    (∃ blk, renderMessage participants mdir b d m fs = some (blk, fs) ∧
      ∀ rest, renderMessages participants mdir b d (m :: rest) fs =
        match renderMessages participants mdir b d rest fs with
        | none => none
        | some (blks, fs') => some (blk ++ blks, fs')) := by
  have s1 : renderPhotoKey mdir b d m ([], fs) = ([], fs) := by
    by_cases tp : truthyS m.photo = true
    · have hc := copy_none_eq fs (m.photo.getD "") b d (hphoto tp)
      simp [renderPhotoKey, tp, hc]
    · simp [renderPhotoKey, tp]
  have s2 : renderFileKey mdir b d m ([], fs) = ([], fs) := by
    by_cases tp : truthyS m.file = true
    · have hc := copy_none_eq fs (m.file.getD "") b d (hfile tp)
      simp [renderFileKey, tp, hc]
    · simp [renderFileKey, tp]
  have s3 : renderDocKey mdir b d m ([], fs) = some ([], fs) := by
    cases hdoc : m.document with
    | none => simp [renderDocKey, hdoc]
    | some dv =>
      cases dv with
      | str s =>
        by_cases hs : s ≠ ""
        · have hc := copy_none_eq fs s b d (hdocs s hdoc hs)
          simp [renderDocKey, hdoc, hs, hc]
        · simp [renderDocKey, hdoc, hs]
      | obj fo =>
        cases fo with
        | none => simp [renderDocKey, hdoc]
        | some f =>
          obtain ⟨hf, hcopy⟩ := hdocf f hdoc
          have hc := copy_none_eq fs f b d hcopy
          simp [renderDocKey, hdoc, hf, hc]
  have s4 : renderMediaKey mdir b d m ([], fs) = ([], fs) := by
    cases hmed : m.media with
    | none => simp [renderMediaKey, hmed]
    | some mv =>
      cases mv with
      | str s =>
        by_cases hs : s ≠ ""
        · have hc := copy_none_eq fs s b d (hmeds s hmed hs)
          simp [renderMediaKey, hmed, hs, hc]
        · simp [renderMediaKey, hmed, hs]
      | obj f p pa dc =>
        by_cases ht : (f.isSome || p.isSome || pa.isSome || dc.isSome) = true
        · by_cases hpos : truthyS (py_or_opt f (py_or_opt p (py_or_opt pa dc))) = true
          · have hc := copy_none_eq fs _ b d (hmedo f p pa dc hmed hpos)
            simp [renderMediaKey, hmed, ht, hpos, hc]
          · simp [renderMediaKey, hmed, ht, hpos]
        · simp [renderMediaKey, hmed, ht]
  have s5 : renderAttKey mdir b d m ([], fs) = ([], fs) := by
    cases hat : m.attachments with
    | none => simp [renderAttKey, hat]
    | some atts =>
      by_cases hne : atts ≠ []
      · have hfold := attFold_nochange mdir b d fs atts
          (fun f hf hfe => copy_none_eq fs f b d (hatt atts f hat hf hfe))
        simp only [renderAttKey, hat]
        rw [if_pos hne]
        exact hfold
      · simp [renderAttKey, hat, hne]
  have hsec : renderMediaSection mdir b d m fs = some ([], fs) := by
    rw [renderMediaSection_eq_stages, s1, s2, s3]
    simp [s4, s5]
  have hmsg : ∃ blk, renderMessage participants mdir b d m fs = some (blk, fs) := by
    rw [renderMessage, hsec]
    exact ⟨_, rfl⟩
  obtain ⟨blk, hblk⟩ := hmsg
  refine ⟨hsec, blk, hblk, ?_⟩
  intro rest
  rw [renderMessages, hblk]

/-- Witness for C6 amended: a message whose `photo` points at a file
that exists nowhere renders with no media markup and an unchanged file
system. -/
theorem c6_amended_witness :
    renderMediaSection "media" (MPath.mk true ["base"]) (MPath.mk true ["out", "media"])
        ({ photo := some "missing.jpg", text := some (.str "hello") } : Message) [] =
      some ([], []) :=
  (c6_amended [] "media" (MPath.mk true ["base"]) (MPath.mk true ["out", "media"]) []
    { photo := some "missing.jpg", text := some (.str "hello") }
    (fun _ => by decide) (by decide)
    (fun s h => nomatch h) (fun f h => nomatch h) (fun s h => nomatch h)
    (fun f p pa dc h => nomatch h) (fun atts f h => nomatch h)).1

end HtmlToRead
